import Mathlib

/-!
Verification of the elFinder connector (elfinder/connector.py): a shallow
embedding of the hash/address resolver, request validator, dispatcher error
interception and the command handlers (open, paste, rm, archive, extract),
together with theorems about them.

Python strings are embedded as lists of characters (`Str`); Python dicts
appearing in the code (the volume registry, the request data, response
envelopes, command contracts) are embedded as insertion-ordered association
lists, matching CPython's ordered-dict iteration semantics.  Exceptions are
embedded with `Except`; external side effects (volume-driver mutations,
archive-utility invocations) are recorded in an explicit call trace.
-/

set_option autoImplicit false

namespace ElFinder

/-- Python strings, embedded as character lists. -/
abbrev Str := List Char

/-- Python's `s.split(sep)` for a single-character separator: splits on every
occurrence of `sep` (not just the first), and `"".split(sep) == [""]`. -/
def pySplit (sep : Char) : Str → List Str
  | [] => [[]]
  | c :: cs =>
    match pySplit sep cs with
    | [] => [[]]
    | h :: t => if c = sep then [] :: h :: t else (c :: h) :: t

theorem pySplit_ne_nil (sep : Char) (l : Str) : pySplit sep l ≠ [] := by
  cases l with
  | nil => simp [pySplit]
  | cons c cs =>
    simp only [pySplit]
    cases pySplit sep cs with
    | nil => simp
    | cons h t =>
      by_cases hc : c = sep <;> simp [hc]

/-- A separator-free string splits into the single piece that is the whole
string, mirroring Python's `"ab".split('_') == ["ab"]`. -/
theorem pySplit_eq_single (sep : Char) (l : Str) (h : sep ∉ l) :
    pySplit sep l = [l] := by
  induction l with
  | nil => rfl
  | cons c cs ih =>
    have hc : ¬ c = sep := by
      intro e
      exact h (e ▸ List.mem_cons_self c cs)
    have hcs : sep ∉ cs := fun m => h (List.mem_cons_of_mem _ m)
    simp [pySplit, ih hcs, hc]

/-- Splitting `v ++ sep :: t` where `v` is separator-free peels off `v` as
the first piece. -/
theorem pySplit_append (sep : Char) (v t : Str) (hv : sep ∉ v) :
    pySplit sep (v ++ sep :: t) = v :: pySplit sep t := by
  induction v with
  | nil =>
    simp only [List.nil_append, pySplit]
    cases hq : pySplit sep t with
    | nil => exact absurd hq (pySplit_ne_nil sep t)
    | cons h rest => simp
  | cons c v' ih =>
    have hc : ¬ c = sep := by
      intro e
      exact hv (e ▸ List.mem_cons_self c v')
    have hv' : sep ∉ v' := fun m => hv (List.mem_cons_of_mem _ m)
    simp only [List.cons_append, pySplit, List.append_eq, ih hv', hc, if_false]

/-- The first piece of a split is the longest separator-free prefix. -/
theorem pySplit_headD (sep : Char) (l : Str) :
    (pySplit sep l).headD [] = l.takeWhile (fun c => c != sep) := by
  induction l with
  | nil => rfl
  | cons c cs ih =>
    simp only [pySplit]
    cases hq : pySplit sep cs with
    | nil => exact absurd hq (pySplit_ne_nil sep cs)
    | cons h rest =>
      rw [hq] at ih
      by_cases hc : c = sep
      · subst hc
        simp [List.takeWhile]
      · have hb : (c != sep) = true := by simp [hc]
        have ih' : h = List.takeWhile (fun c => c != sep) cs := by simpa using ih
        simp [List.takeWhile, hb, hc, ← ih']

/-- `os.path.join(a, b)` on a POSIX system, for the two-argument form used by
the archive and extract handlers. -/
def pathJoin (a b : Str) : Str :=
  if b.head? = some '/' then b
  else if a = [] then b
  else if a.getLast? = some '/' then a ++ b
  else a ++ '/' :: b

/-- Python's substring test `pat in s`. -/
def isSubstr (pat : Str) : Str → Bool
  | [] => pat.isEmpty
  | c :: rest => pat.isPrefixOf (c :: rest) || isSubstr pat rest

/-- Python's `s.replace(pat, repl)` for a non-empty pattern, written with a
structural fuel argument (the fuel `s.length` always suffices, since every
step consumes at least one character). -/
def replaceAllGo (pat repl : Str) : Nat → Str → Str
  | _, [] => []
  | 0, s => s
  | fuel + 1, c :: cs =>
    if !pat.isEmpty && pat.isPrefixOf (c :: cs) then
      repl ++ replaceAllGo pat repl fuel (cs.drop (pat.length - 1))
    else
      c :: replaceAllGo pat repl fuel cs

/-- Python's `s.replace(pat, repl)` (non-empty `pat`; the connector only ever
replaces the configured filesystem root path, a non-empty settings string). -/
def replaceAll (pat repl s : Str) : Str :=
  replaceAllGo pat repl s.length s

/-- Membership test used for Python's `field in dict` on embedded key lists. -/
def hasKey (keys : List Str) (k : Str) : Bool :=
  keys.any (fun x => x == k)

theorem hasKey_iff (keys : List Str) (k : Str) :
    hasKey keys k = true ↔ k ∈ keys := by
  simp [hasKey, List.any_eq_true]

/-- A node-info record as produced by a volume driver: the node's hash, its
parent's hash and its display name (the only driver-supplied metadata the
connector itself inspects). -/
structure NodeInfo where
  hash : Str
  phash : Str
  name : Str
  deriving DecidableEq, Repr

/-- A mounted volume driver, embedded through the capability interface the
connector consumes.  Query operations are pure functions of the driver state;
`Option` / `Except` results model driver calls that may raise.  Mutating
operations are additionally recorded in an explicit call trace by handlers. -/
structure Volume where
  getInfo : Str → NodeInfo
  getTree : Str → Bool → Bool → List NodeInfo
  findPath : Str → Option Str
  removeRet : Str → Except Str Str
  pasteRet : List Str → Str → Str → Bool → Except Str (List (Str × Str))
  isFs : Bool

/-- Python exceptions raised inside the connector, by kind. -/
inductive PyErr where
  /-- A generic `Exception(msg)`. -/
  | exc (msg : Str)
  /-- A `KeyError` on a dict lookup. -/
  | keyError (key : Str)
  /-- A `NameError` or `UnboundLocalError` on a never-assigned local name. -/
  | nameError (n : Str)
  /-- `StopIteration` from `next` on an exhausted iterator. -/
  | stopIteration
  /-- A `TypeError` (e.g. `os.path.join` or `str` methods applied to None). -/
  | typeError
  deriving DecidableEq, Repr

/-- Volume-driver mutation calls and external archive-utility invocations,
recorded by handlers as an explicit trace. -/
inductive VolCall where
  | removeCall (volId target : Str)
  | pasteCall (volId : Str) (targets : List Str) (src dst : Str) (cut : Bool)
  | mkdirCall (volId name parent : Str)
  | createArchive (archivePath : Str) (files : List (Option Str))
  | extractArchive (archivePath outDir : Str)
  deriving DecidableEq, Repr

/-- The volume registry `self.volumes`: an insertion-ordered dict from volume
id to volume.  `findVol` is the dict lookup `self.volumes[volume_id]`. -/
def findVol : List (Str × Volume) → Str → Option (Str × Volume)
  | [], _ => none
  | kv :: rest, k => if kv.1 = k then some kv else findVol rest k

/-- The exception message of `raise Exception('Invalid target hash: %s' % hash)`. -/
def invalidHashMsg (h : Str) : Str :=
  "Invalid target hash: ".toList ++ h

/-- `get_volume(hash)`: `volume_id, target = hash.split('_')` — a `ValueError`
(reraised as `Exception('Invalid target hash: ...')`) unless the split yields
exactly two pieces — followed by the registry lookup `self.volumes[volume_id]`
(a `KeyError` when the id is unregistered).  Returns the registry entry that
the lookup found together with the bound local target, which the Python code
computes and then discards. -/
def get_volume (volumes : List (Str × Volume)) (hash : Str) :
    Except PyErr ((Str × Volume) × Str) :=
  match pySplit '_' hash with
  | [v, t] =>
    match findVol volumes v with
    | some kv => .ok (kv, t)
    | none => .error (.keyError v)
  | _ => .error (.exc (invalidHashMsg hash))

/-- `check_command_variables(command_variables)`: walks the command's
contract dict; a `True` entry whose key is missing from `self.data`, or a
`False` entry whose key is present, makes the whole check fail. -/
def check_command_variables : List (Str × Bool) → List Str → Bool
  | [], _ => true
  | (f, b) :: rest, keys =>
    if b && !(hasKey keys f) then false
    else if !b && hasKey keys f then false
    else check_command_variables rest keys

/-- The message of `raise Exception('Moving between volumes is not supported.')`. -/
def crossVolumeMsg : Str :=
  "Moving between volumes is not supported.".toList

/-- The `type_map` dict of the archive handler (MIME type to extension). -/
def type_map (ty : Str) : Option Str :=
  if ty = "application/x-tar".toList then some "tar".toList
  else if ty = "application/zip".toList then some "zip".toList
  else none

/-- Truthiness of `_find_path`'s result, as tested by `if abs_path:` —
`None` and the empty string are falsy. -/
def truthyPath : Option Str → Bool
  | none => false
  | some s => !s.isEmpty

/-- The empty-target branch of the `__open` handler: `cwd` is
`get_info('')` of the first registered volume (`next(iter(...))` raises
`StopIteration` when no volume is mounted), and the loop over the registry
executes `self.response['files'] = volume.get_tree('', ...)` once per
volume, each iteration overwriting the previous assignment; `none` stands
for the `files` key never having been assigned. -/
def openEmptyTarget (volumes : List (Str × Volume)) (incAncestors incSiblings : Bool) :
    Except PyErr (NodeInfo × Option (List NodeInfo)) :=
  match volumes with
  | [] => .error .stopIteration
  | (_, v0) :: _ =>
    let cwd := v0.getInfo []
    let files := volumes.foldl
      (fun _ kv => some (kv.2.getTree [] incAncestors incSiblings)) none
    .ok (cwd, files)

/-- The `__paste` handler: resolves `src` and `dst`, raises the
cross-volume `Exception` when the two resolved volume objects differ
(object identity coincides with registry-key equality, each volume being
registered once under its own id), and otherwise delegates to
`dest_volume.paste`.  The second component is the trace of volume mutation
calls performed. -/
def pasteHandler (volumes : List (Str × Volume)) (targets : List Str)
    (src dst cut : Str) : Except PyErr (List (Str × Str)) × List VolCall :=
  let cutFlag := cut = "1".toList
  match get_volume volumes src with
  | .error e => (.error e, [])
  | .ok (kvs, _) =>
    match get_volume volumes dst with
    | .error e => (.error e, [])
    | .ok (kvd, _) =>
      if kvs.1 ≠ kvd.1 then (.error (.exc crossVolumeMsg), [])
      else
        match kvd.2.pasteRet targets src dst cutFlag with
        | .error m => (.error (.exc m), [.pasteCall kvd.1 targets src dst cutFlag])
        | .ok env => (.ok env, [.pasteCall kvd.1 targets src dst cutFlag])

/-- The loop of the `__remove` handler: for each target in order, resolve
its own volume and call that volume's `remove`, appending the returned
value to the `removed` list; the first raised exception aborts the loop.
The trace records one remove call per processed target. -/
def removeLoop (volumes : List (Str × Volume)) :
    List Str → Except PyErr (List Str × List VolCall)
  | [] => .ok ([], [])
  | t :: ts =>
    match get_volume volumes t with
    | .error e => .error e
    | .ok (kv, _) =>
      match kv.2.removeRet t with
      | .error m => .error (.exc m)
      | .ok r =>
        match removeLoop volumes ts with
        | .error e => .error e
        | .ok (rs, calls) => .ok (r :: rs, .removeCall kv.1 t :: calls)

/-- The `__archive` handler.  When `_find_path(target)` is truthy it builds
the archive path `os.path.join(abs_path, name + '.' + type_map[type])`
(a `KeyError` for a MIME type outside the map), collects the resolved paths
of all listed targets, invokes the external archive-creation utility, and
filters the re-scanned tree of `target` for nodes whose resolved path
equals the archive path.  When `_find_path(target)` is falsy, the branch
assigning `zipfile` and `added` is skipped, yet the reconciliation loop and
the final response update still execute, so the first tree node's
comparison dereferences the never-assigned local `zipfile` (or, for an
empty tree, the final update dereferences the never-assigned `added`),
raising an unbound-local-name error. -/
def archiveHandler (volumes : List (Str × Volume)) (target : Str)
    (targets : List Str) (name ty : Str) :
    Except PyErr (List NodeInfo × List VolCall) :=
  match get_volume volumes target with
  | .error e => .error e
  | .ok (kv, _) =>
    let vol := kv.2
    let absPath := vol.findPath target
    if truthyPath absPath then
      match type_map ty with
      | none => .error (.keyError ty)
      | some ext =>
        let p := absPath.getD []
        let zipfile := pathJoin p (name ++ '.' :: ext)
        let files := targets.map vol.findPath
        let added := (vol.getTree target false false).filter
          (fun n => vol.findPath n.hash == some zipfile)
        .ok (added, [.createArchive zipfile files])
    else
      if (vol.getTree target false false).isEmpty then
        .error (.nameError "added".toList)
      else
        .error (.nameError "zipfile".toList)

/-- The archive filename stem as the `__extract` handler computes it:
`path.split('/')[-1].split('.')[0]` (the last path component, up to its
first dot).  The defaults of `getLastD`/`headD` are unreachable since
`pySplit` never returns an empty list. -/
def fileStem (p : Str) : Str :=
  (pySplit '.' ((pySplit '/' p).getLastD [])).headD []

/-- The `__extract` handler: resolves the target archive, derives the
extraction folder name from the archive's filename stem, joins it onto the
parent's resolved path, calls `mkdir` on the volume resolved from the
parent hash, invokes the external extraction utility, and filters the
re-scanned tree of the parent for nodes whose resolved path equals the new
folder's path.  A `None` from `_find_path` raises a `TypeError`
(`None.split` / `os.path.join(None, ...)` in the Python code). -/
def extractHandler (volumes : List (Str × Volume)) (target : Str) :
    Except PyErr (List NodeInfo × List VolCall) :=
  match get_volume volumes target with
  | .error e => .error e
  | .ok (kv, _) =>
    let vol := kv.2
    let info := vol.getInfo target
    match vol.findPath target with
    | none => .error .typeError
    | some p =>
      let archiveName := fileStem p
      match vol.findPath info.phash with
      | none => .error .typeError
      | some pp =>
        let folder := pathJoin pp archiveName
        match get_volume volumes info.phash with
        | .error e => .error e
        | .ok (kvp, _) =>
          let added := (vol.getTree info.phash false false).filter
            (fun n => vol.findPath n.hash == some folder)
          .ok (added,
            [.mkdirCall kvp.1 archiveName info.phash, .extractArchive p folder])

/-- The response-envelope key written on failure. -/
def errorKey : Str := "error".toList

/-- The value of `self.data.get('target', '')` over the embedded request
data. -/
def targetOf (data : List (Str × Str)) : Str :=
  ((data.find? (fun kv => kv.1 == "target".toList)).map Prod.snd).getD []

/-- The sanitisation loop of `run_command`'s except branch: scan the volume
registry in order for an entry whose id occurs in the request's target and
which is a filesystem-backed driver; on the first such entry, replace the
configured filesystem root (`settings.ELFINDER_FS_DRIVER_ROOT`) in the
message with the placeholder and stop. -/
def sanitize (volumes : List (Str × Volume)) (target fsRoot msg : Str) : Str :=
  match volumes.find? (fun kv => isSubstr kv.1 target && kv.2.isFs) with
  | some _ => replaceAll fsRoot "...".toList msg
  | none => msg

/-- `run_command`: validate the request data against the command's
contract; a missing handler function yields the fixed failure message;
otherwise the handler runs and any exception it raises is caught here —
nowhere else — and its message, sanitised, is written under the error key.
The HTTP status code stays at the constructor default 200 in every case.
The handler argument is the outcome of the handler body: `none` for a
non-callable lookup, `some (.ok env)` for a handler that completed with
envelope `env`, and `some (.error msg)` for a handler that raised an
exception with message `msg`. -/
def run_command (volumes : List (Str × Volume)) (data : List (Str × Str))
    (fsRoot : Str) (contract : List (Str × Bool))
    (handler : Option (Except Str (List (Str × Str)))) :
    List (Str × Str) × Nat :=
  if check_command_variables contract (data.map Prod.fst) = false then
    ([(errorKey, "Invalid arguments".toList)], 200)
  else
    match handler with
    | none => ([(errorKey, "Command failed".toList)], 200)
    | some (.ok env) => (env, 200)
    | some (.error msg) =>
      ([(errorKey, sanitize volumes (targetOf data) fsRoot msg)], 200)

/-- A volume driver all of whose queries return inert defaults; used as a
concrete registry entry in counterexamples and witnesses. -/
def trivialVolume : Volume where
  getInfo := fun _ => ⟨[], [], []⟩
  getTree := fun _ _ _ => []
  findPath := fun _ => none
  removeRet := fun _ => .error "remove failed".toList
  pasteRet := fun _ _ _ _ => .error "paste failed".toList
  isFs := false

/-- C1 (counterexample): the round-trip fails as soon as the local target
itself contains the separator: with volume id `v` registered, resolving
`v_a_b` does not return the pair `(volumes[v], "a_b")` — the split is on
every separator occurrence, three pieces result, and the invalid-hash
exception is raised. -/
theorem resolver_roundtrip_counterexample :
    get_volume [("v".toList, trivialVolume)] "v_a_b".toList
        = .error (.exc (invalidHashMsg "v_a_b".toList))
    ∧ (Except.error (PyErr.exc (invalidHashMsg "v_a_b".toList)) :
          Except PyErr ((Str × Volume) × Str))
        ≠ .ok (("v".toList, trivialVolume), "a_b".toList) := by
  refine ⟨rfl, ?_⟩
  intro h
  exact Except.noConfusion h

/-- C1 (amended): for every identifier `v ++ sep ++ t` with `v` a registered
volume id and neither `v` nor `t` containing the separator character,
resolution returns exactly the registered entry for `v` paired with the
local target `t`. -/
theorem resolver_roundtrip_amended (volumes : List (Str × Volume))
    (v t : Str) (kv : Str × Volume) (hv : '_' ∉ v) (ht : '_' ∉ t)
    (hlook : findVol volumes v = some kv) :
    get_volume volumes (v ++ '_' :: t) = .ok (kv, t) := by
  unfold get_volume
  rw [pySplit_append '_' v t hv, pySplit_eq_single '_' t ht]
  simp [hlook]

/-- C1 (witness): the amended round-trip at the concrete registry
`[("v", trivialVolume)]` and identifier `v_a`. -/
theorem resolver_roundtrip_amended_witness :
    get_volume [("v".toList, trivialVolume)] "v_a".toList
      = .ok (("v".toList, trivialVolume), "a".toList) :=
  resolver_roundtrip_amended [("v".toList, trivialVolume)]
    "v".toList "a".toList ("v".toList, trivialVolume)
    (by decide) (by decide) rfl

/-- C8: an identifier with no separator resolves to the invalid-hash
exception; a well-formed identifier whose volume segment is unregistered
resolves to the distinct key-lookup error naming that segment; and whenever
the prefix of the identifier before the first separator is unregistered,
resolution never returns any volume/target pair. -/
theorem resolver_failure_modes (volumes : List (Str × Volume)) (id : Str) :
    ('_' ∉ id → get_volume volumes id = .error (.exc (invalidHashMsg id)))
    ∧ (∀ v t, '_' ∉ v → '_' ∉ t → id = v ++ '_' :: t →
        findVol volumes v = none →
        get_volume volumes id = .error (.keyError v))
    ∧ (findVol volumes (id.takeWhile (fun c => c != '_')) = none →
        ∀ out, get_volume volumes id ≠ .ok out) := by
  refine ⟨?_, ?_, ?_⟩
  · intro h
    unfold get_volume
    rw [pySplit_eq_single '_' id h]
  · intro v t hv ht hid hlook
    subst hid
    unfold get_volume
    rw [pySplit_append '_' v t hv, pySplit_eq_single '_' t ht]
    simp [hlook]
  · intro hlook out
    unfold get_volume
    have hhead := pySplit_headD '_' id
    cases hq : pySplit '_' id with
    | nil => exact absurd hq (pySplit_ne_nil '_' id)
    | cons h rest =>
      rw [hq] at hhead
      simp only [List.headD_cons] at hhead
      cases rest with
      | nil => simp
      | cons h2 rest2 =>
        cases rest2 with
        | nil =>
          subst hhead
          simp [hlook]
        | cons h3 rest3 => simp

/-- C8 (witness): a separator-free identifier yields the invalid-hash
exception, and a well-formed identifier on an empty registry yields the
key-lookup error naming its volume segment. -/
theorem resolver_failure_modes_witness :
    get_volume ([] : List (Str × Volume)) "abc".toList
        = .error (.exc (invalidHashMsg "abc".toList))
    ∧ get_volume ([] : List (Str × Volume)) "v_t".toList
        = .error (.keyError "v".toList) :=
  ⟨(resolver_failure_modes [] "abc".toList).1 (by decide),
   (resolver_failure_modes [] "v_t".toList).2.1 "v".toList "t".toList
     (by decide) (by decide) (by decide) rfl⟩

/-- The validator accepts exactly when each contract entry's required flag
matches the presence of its key in the request data. -/
theorem check_eq_true_iff (contract : List (Str × Bool)) (keys : List Str) :
    check_command_variables contract keys = true ↔
      ∀ fb ∈ contract, hasKey keys fb.1 = fb.2 := by
  induction contract with
  | nil => simp [check_command_variables]
  | cons fb rest ih =>
    obtain ⟨f, b⟩ := fb
    cases hk : hasKey keys f <;> cases b <;>
      simp [check_command_variables, hk, ih]

/-- C3: the request validator returns true iff every contract key mapped to
true is present among the request keys and every contract key mapped to
false is absent; and the verdict depends only on the presence of the
contract's own keys — two request key sets agreeing on those keys receive
the same verdict, whatever extra keys either contains. -/
theorem validator_contract (contract : List (Str × Bool)) (keys : List Str) :
    (check_command_variables contract keys = true ↔
      ∀ fb ∈ contract, (fb.2 = true → fb.1 ∈ keys) ∧ (fb.2 = false → fb.1 ∉ keys))
    ∧ ∀ keys2, (∀ fb ∈ contract, (fb.1 ∈ keys ↔ fb.1 ∈ keys2)) →
        check_command_variables contract keys2
          = check_command_variables contract keys := by
  constructor
  · rw [check_eq_true_iff]
    constructor
    · intro h fb hm
      have hfb := h fb hm
      constructor
      · intro hb
        rw [hb] at hfb
        exact (hasKey_iff keys fb.1).mp hfb
      · intro hb hmem
        rw [hb] at hfb
        have : hasKey keys fb.1 = true := (hasKey_iff keys fb.1).mpr hmem
        simp [hfb] at this
    · intro h fb hm
      obtain ⟨h1, h2⟩ := h fb hm
      cases hb : fb.2
      · cases hk : hasKey keys fb.1
        · rfl
        · exact absurd ((hasKey_iff keys fb.1).mp hk) (h2 hb)
      · rw [Bool.eq_iff_iff, hasKey_iff]
        exact ⟨fun _ => rfl, fun _ => h1 hb⟩
  · intro keys2 hagree
    have hk2 : ∀ fb ∈ contract, hasKey keys2 fb.1 = hasKey keys fb.1 := by
      intro fb hm
      rw [Bool.eq_iff_iff, hasKey_iff, hasKey_iff]
      exact (hagree fb hm).symm
    rw [Bool.eq_iff_iff, check_eq_true_iff, check_eq_true_iff]
    constructor
    · intro h fb hm
      rw [← hk2 fb hm]
      exact h fb hm
    · intro h fb hm
      rw [hk2 fb hm]
      exact h fb hm

/-- C3 (witness): the contract of the open command at concrete request key
sets with and without a non-contract key. -/
theorem validator_contract_witness :
    check_command_variables [("target".toList, true)]
        ["target".toList, "extra".toList] = true
    ∧ check_command_variables [("target".toList, true)] ["target".toList]
      = check_command_variables [("target".toList, true)]
          ["target".toList, "extra".toList] :=
  ⟨by decide,
   (validator_contract [("target".toList, true)]
      ["target".toList, "extra".toList]).2 ["target".toList] (by decide)⟩

/-- Root node of the first demonstration volume. -/
def nodeInfoA : NodeInfo := ⟨"a_root".toList, [], "rootA".toList⟩

/-- Root node of the second demonstration volume. -/
def nodeInfoB : NodeInfo := ⟨"b_root".toList, [], "rootB".toList⟩

/-- Demonstration volume A: its root tree listing holds its root node. -/
def volumeA : Volume := { trivialVolume with
  getInfo := fun _ => nodeInfoA
  getTree := fun _ _ _ => [nodeInfoA] }

/-- Demonstration volume B: its root tree listing holds its root node. -/
def volumeB : Volume := { trivialVolume with
  getInfo := fun _ => nodeInfoB
  getTree := fun _ _ _ => [nodeInfoB] }

/-- C2 (code-bug evaluation): with volumes A then B mounted, the
empty-target open branch returns A's root info as cwd, but the files value
holds only B's tree listing — A's root tree entry is absent, because each
iteration of the per-volume loop overwrites the files assignment instead
of concatenating, contradicting the handler documentation that information
about the root dirs of all currently-opened volumes is returned. -/
theorem open_empty_target_overwrites :
    openEmptyTarget [("a".toList, volumeA), ("b".toList, volumeB)] false false
        = .ok (nodeInfoA, some [nodeInfoB])
    ∧ nodeInfoA ∉ [nodeInfoB] :=
  ⟨rfl, by decide⟩

/-- C4: whenever src and dst resolve to two different mounted volumes, the
paste handler fails with the cross-volume exception — whatever the value of
the cut parameter — and performs no volume mutation call: the call trace is
empty, so in particular no volume's paste is invoked. -/
theorem paste_cross_volume (volumes : List (Str × Volume))
    (targets : List Str) (src dst cut : Str)
    (kvs kvd : Str × Volume) (ls ld : Str)
    (hs : get_volume volumes src = .ok (kvs, ls))
    (hd : get_volume volumes dst = .ok (kvd, ld))
    (hne : kvs.1 ≠ kvd.1) :
    pasteHandler volumes targets src dst cut
      = (.error (.exc crossVolumeMsg), []) := by
  unfold pasteHandler
  rw [hs, hd]
  simp [hne]

/-- C4 (witness): two distinct trivially-backed volumes, src on the first
and dst on the second, with the cut flag set. -/
theorem paste_cross_volume_witness :
    pasteHandler [("a".toList, trivialVolume), ("b".toList, trivialVolume)]
        ["a_x".toList] "a_x".toList "b_y".toList "1".toList
      = (.error (.exc crossVolumeMsg), []) :=
  paste_cross_volume _ _ _ _ _
    ("a".toList, trivialVolume) ("b".toList, trivialVolume)
    "x".toList "y".toList rfl rfl (by decide)

/-- C5: when every target in the list resolves and its removal succeeds,
the remove handler succeeds; the removed list has one entry per input
target, the i-th entry being the removal result of the i-th target on that
target's own volume, and the call trace holds exactly one remove call per
target, on that target's volume, in input order. -/
theorem rm_multivolume_order (volumes : List (Str × Volume)) (targets : List Str)
    (h : ∀ t ∈ targets, ∃ kv loc r,
      get_volume volumes t = .ok (kv, loc) ∧ kv.2.removeRet t = .ok r) :
    ∃ rs calls, removeLoop volumes targets = .ok (rs, calls)
      ∧ rs.length = targets.length
      ∧ calls.length = targets.length
      ∧ ∀ i (hi : i < targets.length) kv loc,
          get_volume volumes targets[i] = .ok (kv, loc) →
          rs[i]? = (kv.2.removeRet targets[i]).toOption
          ∧ calls[i]? = some (.removeCall kv.1 targets[i]) := by
  induction targets with
  | nil =>
    exact ⟨[], [], rfl, rfl, rfl, fun i hi => absurd hi (Nat.not_lt_zero i)⟩
  | cons t ts ih =>
    obtain ⟨kv, loc, r, hres, hrem⟩ := h t (List.mem_cons_self t ts)
    obtain ⟨rs, calls, heq, hlen1, hlen2, hpt⟩ :=
      ih (fun x hx => h x (List.mem_cons_of_mem t hx))
    refine ⟨r :: rs, .removeCall kv.1 t :: calls, ?_,
      by simp [hlen1], by simp [hlen2], ?_⟩
    · simp only [removeLoop, hres, hrem, heq]
    · intro i hi kv2 loc2 hres2
      cases i with
      | zero =>
        simp only [List.getElem_cons_zero] at hres2 ⊢
        rw [hres] at hres2
        simp only [Except.ok.injEq, Prod.mk.injEq] at hres2
        obtain ⟨hkv, -⟩ := hres2
        subst hkv
        rw [hrem]
        exact ⟨by simp [Except.toOption], by simp⟩
      | succ n =>
        have hn : n < ts.length := Nat.lt_of_succ_lt_succ hi
        simp only [List.getElem_cons_succ] at hres2
        have := hpt n hn kv2 loc2 hres2
        simpa using this

/-- Witness volume whose remove returns the removed target's hash. -/
def removeVolume : Volume := { trivialVolume with removeRet := fun t => .ok t }

/-- C5 (witness): two targets on two different volumes, both removable. -/
theorem rm_multivolume_order_witness :
    ∃ rs calls,
      removeLoop [("a".toList, removeVolume), ("b".toList, removeVolume)]
          ["a_1".toList, "b_2".toList] = .ok (rs, calls)
      ∧ rs.length = (["a_1".toList, "b_2".toList] : List Str).length
      ∧ calls.length = (["a_1".toList, "b_2".toList] : List Str).length
      ∧ ∀ i (hi : i < (["a_1".toList, "b_2".toList] : List Str).length)
          (kv : Str × Volume) (loc : Str),
          get_volume [("a".toList, removeVolume), ("b".toList, removeVolume)]
              (["a_1".toList, "b_2".toList] : List Str)[i] = .ok (kv, loc) →
          rs[i]? = (kv.2.removeRet (["a_1".toList, "b_2".toList] : List Str)[i]).toOption
          ∧ calls[i]? = some (.removeCall kv.1 (["a_1".toList, "b_2".toList] : List Str)[i]) :=
  rm_multivolume_order [("a".toList, removeVolume), ("b".toList, removeVolume)]
    ["a_1".toList, "b_2".toList] (by
      intro t ht
      cases ht with
      | head =>
        exact ⟨("a".toList, removeVolume), "1".toList, "a_1".toList, rfl, rfl⟩
      | tail _ ht2 =>
        cases ht2 with
        | head =>
          exact ⟨("b".toList, removeVolume), "2".toList, "b_2".toList, rfl, rfl⟩
        | tail _ ht3 => cases ht3)

/-- C9: when the contract check passes and the invoked handler raises an
exception, the dispatcher catches it and produces the envelope whose only
key is the error key holding the sanitised exception message, with the HTTP
status code still the default 200; the message is the exception's own text
with the configured filesystem root replaced by the placeholder whenever
some registered filesystem-backed volume's id occurs in the request's
target, and is unchanged when no such volume matches. -/
theorem dispatcher_catch_sanitize (volumes : List (Str × Volume))
    (data : List (Str × Str)) (fsRoot msg : Str) (contract : List (Str × Bool))
    (hv : check_command_variables contract (data.map Prod.fst) = true) :
    run_command volumes data fsRoot contract (some (.error msg))
        = ([(errorKey, sanitize volumes (targetOf data) fsRoot msg)], 200)
    ∧ ((∃ kv ∈ volumes, isSubstr kv.1 (targetOf data) = true ∧ kv.2.isFs = true) →
        sanitize volumes (targetOf data) fsRoot msg
          = replaceAll fsRoot "...".toList msg)
    ∧ ((∀ kv ∈ volumes, ¬(isSubstr kv.1 (targetOf data) = true ∧ kv.2.isFs = true)) →
        sanitize volumes (targetOf data) fsRoot msg = msg) := by
  refine ⟨?_, ?_, ?_⟩
  · simp [run_command, hv]
  · rintro ⟨kv, hmem, h1, h2⟩
    unfold sanitize
    cases hf : volumes.find?
        (fun kv => isSubstr kv.1 (targetOf data) && kv.2.isFs) with
    | some kv2 => rfl
    | none =>
      rw [List.find?_eq_none] at hf
      have : (isSubstr kv.1 (targetOf data) && kv.2.isFs) = true := by
        rw [h1, h2]
        rfl
      exact absurd this (hf kv hmem)
  · intro hall
    unfold sanitize
    cases hf : volumes.find?
        (fun kv => isSubstr kv.1 (targetOf data) && kv.2.isFs) with
    | none => rfl
    | some kv2 =>
      have hp := List.find?_some hf
      have hmem := List.mem_of_find?_eq_some hf
      rw [Bool.and_eq_true] at hp
      exact absurd hp (hall kv2 hmem)

/-- Witness volume flagged as a filesystem-backed driver. -/
def fsVolume : Volume := { trivialVolume with isFs := true }

/-- C9 (witness): a handler exception whose message holds the filesystem
root, on a request targeting the filesystem-backed volume: the envelope
carries the redacted message and the status code is 200. -/
theorem dispatcher_catch_sanitize_witness :
    run_command [("a".toList, fsVolume)]
        [("cmd".toList, "open".toList), ("target".toList, "a_x".toList)]
        "/store".toList [("target".toList, true)]
        (some (.error "boom /store/x".toList))
      = ([(errorKey, "boom .../x".toList)], 200) :=
  (dispatcher_catch_sanitize [("a".toList, fsVolume)]
    [("cmd".toList, "open".toList), ("target".toList, "a_x".toList)]
    "/store".toList "boom /store/x".toList [("target".toList, true)]
    (by decide)).1

/-- C6: a successful archive invocation — target resolved, its filesystem
location truthy, the MIME type in the declared map — invokes the external
archive-creation utility exactly once, on the path joining the target's
resolved location with name.ext for the mapped extension, over the resolved
paths of all listed targets in order; and the added list is exactly the
filter of the target's re-scanned tree keeping the nodes whose resolved
path equals the archive's path — hence exactly one node when exactly one
tree node resolves to that path. -/
theorem archive_creates_and_reconciles (volumes : List (Str × Volume))
    (target : Str) (targets : List Str) (name ty : Str)
    (kv : Str × Volume) (loc p ext : Str)
    (hres : get_volume volumes target = .ok (kv, loc))
    (hpath : kv.2.findPath target = some p)
    (hp : p ≠ [])
    (hty : type_map ty = some ext) :
    archiveHandler volumes target targets name ty
        = .ok ((kv.2.getTree target false false).filter
            (fun n => kv.2.findPath n.hash
              == some (pathJoin p (name ++ '.' :: ext))),
          [.createArchive (pathJoin p (name ++ '.' :: ext))
            (targets.map kv.2.findPath)])
    ∧ ((kv.2.getTree target false false).countP
          (fun n => kv.2.findPath n.hash
            == some (pathJoin p (name ++ '.' :: ext))) = 1 →
        ((kv.2.getTree target false false).filter
          (fun n => kv.2.findPath n.hash
            == some (pathJoin p (name ++ '.' :: ext)))).length = 1) := by
  constructor
  · have htp : truthyPath (some p) = true := by
      simp [truthyPath, hp]
    unfold archiveHandler
    rw [hres]
    simp [hpath, htp, hty]
  · intro hc
    rw [← List.countP_eq_length_filter]
    exact hc

/-- First file node of the archive-demonstration volume. -/
def nodeF1 : NodeInfo := ⟨"a_f1".toList, "a_root".toList, "f1.txt".toList⟩

/-- The node standing for the freshly created archive in the re-scanned
tree of the archive-demonstration volume. -/
def nodeBundle : NodeInfo := ⟨"a_new".toList, "a_root".toList, "bundle.zip".toList⟩

/-- Archive-demonstration volume: a root at /r, one file, and a tree whose
re-scan already lists the created archive node. -/
def archiveVolume : Volume := { trivialVolume with
  getTree := fun _ _ _ => [nodeF1, nodeBundle]
  findPath := fun t =>
    if t = "a_root".toList then some "/r".toList
    else if t = "a_f1".toList then some "/r/f1.txt".toList
    else if t = "a_new".toList then some "/r/bundle.zip".toList
    else none }

/-- C6 (witness): archiving one file as bundle with the zip MIME type
yields exactly the one tree node resolving to /r/bundle.zip in added, and
one archive-creation call at that path over the listed file's path. -/
theorem archive_creates_and_reconciles_witness :
    archiveHandler [("a".toList, archiveVolume)] "a_root".toList
        ["a_f1".toList] "bundle".toList "application/zip".toList
      = .ok ([nodeBundle],
          [.createArchive "/r/bundle.zip".toList [some "/r/f1.txt".toList]]) := by
  have h := (archive_creates_and_reconciles [("a".toList, archiveVolume)]
    "a_root".toList ["a_f1".toList] "bundle".toList "application/zip".toList
    ("a".toList, archiveVolume) "root".toList "/r".toList "zip".toList
    rfl rfl (by decide) rfl).1
  simpa using h

/-- C10: when the target resolves but the volume's path resolution for it
is falsy (None or empty), the archive handler neither returns an empty
added list nor a clean error: the reconciliation loop (or, for an empty
tree, the final response update) dereferences a never-assigned local and
the handler raises an unbound-local-name error. -/
theorem archive_unbound_on_falsy_path (volumes : List (Str × Volume))
    (target : Str) (targets : List Str) (name ty : Str)
    (kv : Str × Volume) (loc : Str)
    (hres : get_volume volumes target = .ok (kv, loc))
    (hfalsy : truthyPath (kv.2.findPath target) = false) :
    archiveHandler volumes target targets name ty
      = .error (.nameError
          (if (kv.2.getTree target false false).isEmpty then "added".toList
           else "zipfile".toList)) := by
  unfold archiveHandler
  rw [hres]
  simp only [hfalsy, Bool.false_eq_true, if_false]
  cases hemp : (kv.2.getTree target false false).isEmpty <;> simp [hemp]

/-- C10 (witness): a volume resolving no path at all: archiving under it
raises the unbound-name error on the result variable (empty tree case). -/
theorem archive_unbound_on_falsy_path_witness :
    archiveHandler [("a".toList, trivialVolume)] "a_x".toList []
        "bundle".toList "application/zip".toList
      = .error (.nameError "added".toList) := by
  have h := archive_unbound_on_falsy_path [("a".toList, trivialVolume)]
    "a_x".toList [] "bundle".toList "application/zip".toList
    ("a".toList, trivialVolume) "x".toList rfl rfl
  simpa using h

/-- C7: a successful extract invocation performs exactly one directory
creation — named by the archive's filename stem, under the archive's
parent, on the volume the parent hash resolves to — followed by exactly one
external extraction call into the joined folder path; and the added list is
exactly the filter of the parent's re-scanned tree keeping the nodes whose
resolved path equals that new directory's path. -/
theorem extract_creates_folder_and_reconciles (volumes : List (Str × Volume))
    (target : Str) (kv : Str × Volume) (loc p pp : Str)
    (kvp : Str × Volume) (locp : Str)
    (hres : get_volume volumes target = .ok (kv, loc))
    (hpath : kv.2.findPath target = some p)
    (hppath : kv.2.findPath (kv.2.getInfo target).phash = some pp)
    (hpres : get_volume volumes (kv.2.getInfo target).phash = .ok (kvp, locp)) :
    extractHandler volumes target
      = .ok ((kv.2.getTree (kv.2.getInfo target).phash false false).filter
            (fun n => kv.2.findPath n.hash == some (pathJoin pp (fileStem p))),
          [.mkdirCall kvp.1 (fileStem p) (kv.2.getInfo target).phash,
           .extractArchive p (pathJoin pp (fileStem p))]) := by
  unfold extractHandler
  rw [hres]
  simp only [hpath, hppath, hpres]

/-- The node standing for the freshly created extraction folder in the
re-scanned parent tree of the extract-demonstration volume. -/
def nodeExtracted : NodeInfo := ⟨"a_dir".toList, "a_parent".toList, "arc".toList⟩

/-- Extract-demonstration volume: an archive at /r/arc.zip whose parent is
/r, and a parent tree whose re-scan already lists the extraction folder. -/
def extractVolume : Volume := { trivialVolume with
  getInfo := fun t =>
    if t = "a_arc.zip".toList then
      ⟨"a_arc.zip".toList, "a_parent".toList, "arc.zip".toList⟩
    else ⟨[], [], []⟩
  getTree := fun _ _ _ => [nodeExtracted]
  findPath := fun t =>
    if t = "a_arc.zip".toList then some "/r/arc.zip".toList
    else if t = "a_parent".toList then some "/r".toList
    else if t = "a_dir".toList then some "/r/arc".toList
    else none }

/-- C7 (witness): extracting arc.zip creates the folder arc (the filename
stem) under the parent, extracts into /r/arc, and reports exactly the one
parent-tree node resolving to /r/arc. -/
theorem extract_creates_folder_and_reconciles_witness :
    extractHandler [("a".toList, extractVolume)] "a_arc.zip".toList
      = .ok ([nodeExtracted],
          [.mkdirCall "a".toList "arc".toList "a_parent".toList,
           .extractArchive "/r/arc.zip".toList "/r/arc".toList]) := by
  have h := extract_creates_folder_and_reconciles [("a".toList, extractVolume)]
    "a_arc.zip".toList ("a".toList, extractVolume) "arc.zip".toList
    "/r/arc.zip".toList "/r".toList ("a".toList, extractVolume) "parent".toList
    rfl rfl rfl rfl
  simpa using h

end ElFinder
